import Mathlib

/-!
Shallow embedding of the two renaming tools of this repository:
`create_is.py` (metadata-driven renamer, class `MediaOrganizer`) and
`plex_converter.py` (filename sanitizer).  Python strings are modelled as
lists of code points (`List Nat`); the filesystem operations of one
directory are modelled as an association list from names to file ids.
-/

/-- Code points of a string literal, the model of a Python `str`. -/
def codes (s : String) : List Nat := s.toList.map Char.toNat

/-- The nine characters removed or replaced by both sanitizers:
`< > : " / \ | ? *` (the regex class in both `sanitize_filename`s). -/
def invalid9 (c : Nat) : Bool :=
  c = 60 || c = 62 || c = 58 || c = 34 || c = 47 || c = 92 || c = 124 || c = 63 || c = 42

/-- The character class of `plex_converter.sanitize_filename`'s regex:
the nine invalid characters together with the control range `\x00-\x1F`. -/
def plexInvalid (c : Nat) : Bool := invalid9 c || c ≤ 31

/-- Python `str.isspace` (the set stripped by `str.strip()` with no argument). -/
def pySpace (c : Nat) : Bool :=
  (9 ≤ c && c ≤ 13) || (28 ≤ c && c ≤ 32) || c = 133 || c = 160 ||
  c = 5760 || (8192 ≤ c && c ≤ 8202) || c = 8232 || c = 8233 || c = 8239 || c = 8287 || c = 12288

/-- Drop the longest run of characters satisfying `p` from the end of `l`
(Python's `rstrip` restricted to the set `p`). -/
def dropTrail (p : Nat → Bool) (l : List Nat) : List Nat :=
  (l.reverse.dropWhile p).reverse

/-- Drop characters satisfying `p` from both ends (Python `str.strip(chars)`). -/
def strip2 (p : Nat → Bool) (l : List Nat) : List Nat :=
  dropTrail p (l.dropWhile p)

/-- Python `str.strip()` with no argument: strip whitespace from both ends. -/
def pyStrip (l : List Nat) : List Nat := strip2 pySpace l

/-- `MediaOrganizer.sanitize_filename`:
`re.sub(r'[<>:"/\\|?*]', '', filename).strip()`. -/
def ci_sanitize (s : List Nat) : List Nat :=
  pyStrip (s.filter (fun c => !(invalid9 c)))

/-- Scanner for `re.sub(r'_+', '_', s)`: the flag records whether the previous
kept character was an underscore of a run still being skipped. -/
def squashUAux : Bool → List Nat → List Nat
  | _, [] => []
  | prevU, c :: rest =>
    if c = 95 then
      if prevU then squashUAux true rest else 95 :: squashUAux true rest
    else c :: squashUAux false rest

/-- `re.sub(r'_+', '_', s)`: each maximal run of underscores becomes one. -/
def squashU (l : List Nat) : List Nat := squashUAux false l

/-- The fallback name of `plex_converter.sanitize_filename` for an empty result. -/
def unnamedFile : List Nat := codes "unnamed_file"

/-- `plex_converter.sanitize_filename`: replace invalid characters with `_`,
strip leading/trailing spaces and dots, collapse runs of underscores, strip
trailing underscores, fall back to a fixed name when empty. -/
def plexSanitize (s : List Nat) : List Nat :=
  let s1 := s.map (fun c => if plexInvalid c then 95 else c)
  let s2 := strip2 (fun c => c = 32 || c = 46) s1
  let s3 := squashU s2
  let s4 := dropTrail (fun c => c = 95) s3
  if s4 = [] then unnamedFile else s4

example : ci_sanitize (codes " a<b>c ") = codes "abc" := by decide
example : ci_sanitize (codes "?") = [] := by decide
example : plexSanitize (codes "Show: Season 1?.mp4") = codes "Show_ Season 1_.mp4" := by
  decide
example : plexSanitize (codes "a.<") = codes "a." := by decide
example : plexSanitize (codes "a.") = codes "a" := by decide
example : plexSanitize (codes "..") = codes "unnamed_file" := by decide

/-- Index of the last `.` in a name, when there is one. -/
def lastDotIdx (l : List Nat) : Option Nat :=
  match l.reverse.findIdx? (fun c => c = 46) with
  | none => none
  | some j => some (l.length - 1 - j)

/-- `pathlib.PurePath.stem` on a bare file name: the name without its last
suffix; a dot at position 0 or ending the name opens no suffix. -/
def pyStem (name : List Nat) : List Nat :=
  match lastDotIdx name with
  | none => name
  | some i => if 0 < i ∧ i < name.length - 1 then name.take i else name

/-- `pathlib.PurePath.suffix` on a bare file name. -/
def pySuffix (name : List Nat) : List Nat :=
  match lastDotIdx name with
  | none => []
  | some i => if 0 < i ∧ i < name.length - 1 then name.drop i else []

/-- Character `i` of `s` (0 when out of range; every use is range-guarded). -/
def cAt (s : List Nat) (i : Nat) : Nat := s.getD i 0

def isDigit (c : Nat) : Bool := 48 ≤ c && c ≤ 57

/-- The class `[\(\.\[ ]` opening the year pattern of `extract_title_year`. -/
def openDelim (c : Nat) : Bool := c = 40 || c = 46 || c = 91 || c = 32

/-- The class `[\)\.\] ]` closing the year pattern of `extract_title_year`. -/
def closeDelim (c : Nat) : Bool := c = 41 || c = 46 || c = 93 || c = 32

/-- The regex `[\(\.\[ ](19|20)\d{2}[\)\.\] ]` matches `s` at position `i`. -/
def yearMatchAt (s : List Nat) (i : Nat) : Bool :=
  decide (i + 5 < s.length) && openDelim (cAt s i) &&
    ((cAt s (i + 1) = 49 && cAt s (i + 2) = 57) ||
     (cAt s (i + 1) = 50 && cAt s (i + 2) = 48)) &&
    isDigit (cAt s (i + 3)) && isDigit (cAt s (i + 4)) && closeDelim (cAt s (i + 5))

/-- The numeric value of the four digits inside a match at position `i`. -/
def yearAt (s : List Nat) (i : Nat) : Nat :=
  (cAt s (i + 1) - 48) * 1000 + (cAt s (i + 2) - 48) * 100 +
    (cAt s (i + 3) - 48) * 10 + (cAt s (i + 4) - 48)

/-- Scan of `re.search`: the leftmost match position at or after `i`,
with enough fuel to cover the whole string. -/
def findFrom (s : List Nat) : Nat → Nat → Option Nat
  | 0, _ => none
  | fuel + 1, i => if yearMatchAt s i then some i else findFrom s fuel (i + 1)

/-- `re.search(year_pattern, stem)`: the leftmost match position, if any. -/
def findYearMatch (s : List Nat) : Option Nat := findFrom s s.length 0

/-- `'.'` replaced by `' '` (the `title.replace('.', ' ')` step). -/
def dotToSpace (l : List Nat) : List Nat :=
  l.map (fun c => if c = 46 then 32 else c)

/-- `MediaOrganizer.extract_title_year`: search the stem for the year pattern;
on a match, the year is its four digits and the title is the stem with the
whole match removed, dots despaced and stripped; otherwise no year. -/
def extract_title_year (filename : List Nat) : List Nat × Option Nat :=
  let stem := pyStem filename
  match findYearMatch stem with
  | some i =>
    (pyStrip (dotToSpace (stem.take i ++ stem.drop (i + 6))), some (yearAt stem i))
  | none => (pyStrip (dotToSpace stem), none)

example : pyStem (codes "The.Matrix.1999.mkv") = codes "The.Matrix.1999" := by decide
example : pySuffix (codes "The.Matrix.1999.mkv") = codes ".mkv" := by decide
example : pyStem (codes ".hidden") = codes ".hidden" := by decide
example : extract_title_year (codes "Movie (2000).mkv") = (codes "Movie", some 2000) := by
  decide
example : extract_title_year (codes "The.Matrix.1999.mkv") =
    (codes "The Matrix 1999", none) := by decide
example : extract_title_year (codes "A.2001.b.mkv") = (codes "Ab", some 2001) := by decide

/-- The fields of a provider result dict that the renamer reads.  A field is
`none` when the key is missing from the dict. -/
structure Info where
  title : Option (List Nat)
  release_date : Option (List Nat)
  name : Option (List Nat)
deriving DecidableEq

/-- `self.cache`: a dict from string keys to stored results. -/
abbrev Cache := List (List Nat × Info)

/-- A TMDB search endpoint: title and optional year to either a failure
(`none`, a caught exception) or the response's results list. -/
abbrev Net := List Nat → Option Nat → Option (List Info)

/-- The AniList endpoint: title to failure or the `Page.media` list. -/
abbrev AnimeNet := List Nat → Option (List Info)

def cacheLookup (cache : Cache) (key : List Nat) : Option Info :=
  (cache.find? (fun e => e.1 = key)).map (fun e => e.2)

/-- Decimal digits of `n`, the model of Python `str(int)`. -/
def natCodes (n : Nat) : List Nat := (Nat.toDigits 10 n).map Char.toNat

/-- How an `Optional[int]` year renders inside an f-string:
`None` when absent, its decimal digits otherwise. -/
def optYearCodes : Option Nat → List Nat
  | none => codes "None"
  | some n => natCodes n

/-- `f"movie_{title}_{year}"`. -/
def movieKey (t : List Nat) (y : Option Nat) : List Nat :=
  codes "movie_" ++ t ++ [95] ++ optYearCodes y

/-- `f"tv_{title}_{year}"`. -/
def tvKey (t : List Nat) (y : Option Nat) : List Nat :=
  codes "tv_" ++ t ++ [95] ++ optYearCodes y

/-- `f"anime_{title}"`. -/
def animeKey (t : List Nat) : List Nat := codes "anime_" ++ t

/-- `MediaOrganizer.search_movie`: cache hit returns the stored result;
otherwise query the network; a failure or an empty results list caches
nothing; a non-empty list caches and returns its first item.  The final
component records whether the network was queried. -/
def search_movie (net : Net) (cache : Cache) (t : List Nat) (y : Option Nat) :
    Option Info × Cache × Bool :=
  let key := movieKey t y
  match cacheLookup cache key with
  | some v => (some v, cache, false)
  | none =>
    match net t y with
    | none => (none, cache, true)
    | some [] => (none, cache, true)
    | some (r :: _) => (some r, cache ++ [(key, r)], true)

/-- `MediaOrganizer.search_tv_show`: same shape as `search_movie` with the
`tv_` cache key and the TV endpoint. -/
def search_tv_show (net : Net) (cache : Cache) (t : List Nat) (y : Option Nat) :
    Option Info × Cache × Bool :=
  let key := tvKey t y
  match cacheLookup cache key with
  | some v => (some v, cache, false)
  | none =>
    match net t y with
    | none => (none, cache, true)
    | some [] => (none, cache, true)
    | some (r :: _) => (some r, cache ++ [(key, r)], true)

/-- `MediaOrganizer.search_anime`: keyed by `anime_{title}` only (the
function takes no year), otherwise the same hit/success/failure shape. -/
def search_anime (net : AnimeNet) (cache : Cache) (t : List Nat) :
    Option Info × Cache × Bool :=
  let key := animeKey t
  match cacheLookup cache key with
  | some v => (some v, cache, false)
  | none =>
    match net t with
    | none => (none, cache, true)
    | some [] => (none, cache, true)
    | some (r :: _) => (some r, cache ++ [(key, r)], true)

/-- `MediaOrganizer.format_movie_filename`:
`f"{sanitize(info.get('title', 'Unknown'))} ({info.get('release_date', '0000')[:4]}){ext}"`. -/
def format_movie_filename (info : Info) (ext : List Nat) : List Nat :=
  ci_sanitize (info.title.getD (codes "Unknown")) ++ codes " (" ++
    (info.release_date.getD (codes "0000")).take 4 ++ codes ")" ++ ext

/-- One directory of the filesystem: file names bound to file identities. -/
abbrev FS := List (List Nat × Nat)

def fsLookup (fs : FS) (name : List Nat) : Option Nat :=
  (fs.find? (fun e => e.1 = name)).map (fun e => e.2)

/-- `Path.exists()` of a name inside the directory. -/
def fsExists (fs : FS) (name : List Nat) : Bool := (fsLookup fs name).isSome

/-- POSIX rename inside one directory, as used by `Path.rename` and
`os.rename`: fails (`none`) when the source is missing, otherwise moves the
source's file to the destination name, replacing any file already there. -/
def posixRename (fs : FS) (src dst : List Nat) : Option FS :=
  match fsLookup fs src with
  | none => none
  | some v =>
    some ((fs.filter (fun e => decide (e.1 ≠ src) && decide (e.1 ≠ dst))) ++ [(dst, v)])

/-- The provider lookups `MediaOrganizer.process_file` can issue. -/
inductive Lookup where
  | movie
  | tv
  | anime
deriving DecidableEq, BEq

/-- The search-and-format half of `MediaOrganizer.process_file` (lines
244-255): extract title/year, try the movie search, fall back to the TV
search, and produce the new file name (`none` when there is no match or the
TV dict has no `name` key, whose `KeyError` the surrounding `except` eats).
Also returns the cache left behind and the ordered provider lookups made. -/
def ci_plan (mNet tNet : Net) (cache : Cache) (fileName : List Nat) :
    Option (List Nat) × Cache × List Lookup :=
  let te := extract_title_year fileName
  let ext := pySuffix fileName
  let m := search_movie mNet cache te.1 te.2
  match m.1 with
  | some info => (some (format_movie_filename info ext), m.2.1, [Lookup.movie])
  | none =>
    let tv := search_tv_show tNet m.2.1 te.1 te.2
    match tv.1 with
    | some info =>
      match info.name with
      | some nm =>
        (some (ci_sanitize nm ++ codes " - S01E01" ++ ext), tv.2.1, [Lookup.movie, Lookup.tv])
      | none => (none, tv.2.1, [Lookup.movie, Lookup.tv])
    | none => (none, tv.2.1, [Lookup.movie, Lookup.tv])

/-- What one `MediaOrganizer.process_file` call leaves behind. -/
structure CIOut where
  ok : Bool
  cache : Cache
  fs : FS
  calls : List Lookup
deriving DecidableEq

/-- `MediaOrganizer.process_file`: plan the new name; with no plan return
`False`; in dry-run report and return `True`; otherwise rename only when the
target does not already exist (a failed rename is caught and yields `False`). -/
def ci_process_file (mNet tNet : Net) (cache : Cache) (fs : FS)
    (fileName : List Nat) (dryRun : Bool) : CIOut :=
  match ci_plan mNet tNet cache fileName with
  | (none, c, calls) => ⟨false, c, fs, calls⟩
  | (some newName, c, calls) =>
    if dryRun then ⟨true, c, fs, calls⟩
    else if fsExists fs newName then ⟨false, c, fs, calls⟩
    else
      match posixRename fs fileName newName with
      | some fs2 => ⟨true, c, fs2, calls⟩
      | none => ⟨false, c, fs, calls⟩

/-- `MediaOrganizer.process_directory` restricted to its per-file effect: the
worker pool maps `process_file` over the collected files; the model threads
the shared cache and directory state through them in submission order. -/
def ci_process_directory (mNet tNet : Net) (cache : Cache) (fs : FS)
    (files : List (List Nat)) (dryRun : Bool) : Cache × FS :=
  files.foldl
    (fun st f =>
      let out := ci_process_file mNet tNet st.1 st.2 f dryRun
      (out.cache, out.fs))
    (cache, fs)

/-- `plex_converter.process_file`: a name already equal to its sanitization is
not processed; in dry-run nothing is touched; otherwise `os.rename` runs with
no existence check on the target (an `OSError` is caught and yields `False`). -/
def plex_process_file (fs : FS) (name : List Nat) (dryRun : Bool) : Bool × FS :=
  let s := plexSanitize name
  if s = name then (false, fs)
  else if dryRun then (true, fs)
  else
    match posixRename fs name s with
    | some fs2 => (true, fs2)
    | none => (false, fs)

/-- `plex_converter.process_directory`: `process_file` over the collected
files, threading the directory state. -/
def plex_process_directory (fs : FS) (files : List (List Nat)) (dryRun : Bool) : FS :=
  files.foldl (fun st f => (plex_process_file st f dryRun).2) fs

example :
    ci_process_file (fun _ _ => some [⟨some (codes "The Matrix"), some (codes "1999-03-31"), none⟩])
      (fun _ _ => some []) [] [(codes "x.mkv", 7)] (codes "x.mkv") false =
      ⟨true, [(codes "movie_x_None", ⟨some (codes "The Matrix"), some (codes "1999-03-31"), none⟩)],
        [(codes "The Matrix (1999).mkv", 7)], [Lookup.movie]⟩ := by decide

example :
    plex_process_file [(codes "a<b", 1), (codes "a_b", 2)] (codes "a<b") false =
      (true, [(codes "a_b", 1)]) := by decide

/-! ## List lemmas for the sanitizers -/

theorem dropWhile_self_idem (p : Nat → Bool) (l : List Nat) :
    (l.dropWhile p).dropWhile p = l.dropWhile p := by
  induction l with
  | nil => rfl
  | cons x xs ih =>
    by_cases h : p x
    · simp [List.dropWhile_cons, h, ih]
    · simp [List.dropWhile_cons, h]

theorem dropTrail_idem (p : Nat → Bool) (l : List Nat) :
    dropTrail p (dropTrail p l) = dropTrail p l := by
  simp [dropTrail, dropWhile_self_idem]

theorem dropWhile_head_false (p : Nat → Bool) (l : List Nat)
    (h : l.dropWhile p = l) : (dropTrail p l).dropWhile p = dropTrail p l := by
  cases l with
  | nil => simp [dropTrail]
  | cons x xs =>
    have hx : p x = false := by
      by_cases hpx : p x
      · exfalso
        rw [List.dropWhile_cons_of_pos hpx] at h
        have hle := (List.dropWhile_sublist (l := xs) p).length_le
        rw [h] at hle
        simp at hle
      · exact Bool.of_not_eq_true hpx
    show (dropTrail p (x :: xs)).dropWhile p = dropTrail p (x :: xs)
    unfold dropTrail
    rw [List.reverse_cons, List.dropWhile_append]
    by_cases he : (xs.reverse.dropWhile p).isEmpty
    · simp only [he, if_pos]
      simp [List.dropWhile_cons, hx]
    · simp only [he, if_neg, Bool.false_eq_true, not_false_iff]
      rw [List.reverse_append, List.reverse_cons]
      simp only [List.reverse_nil, List.nil_append, List.singleton_append]
      rw [List.dropWhile_cons_of_neg (by simp [hx])]

theorem strip2_idem (p : Nat → Bool) (l : List Nat) :
    strip2 p (strip2 p l) = strip2 p l := by
  unfold strip2
  rw [dropWhile_head_false p _ (dropWhile_self_idem p l), dropTrail_idem]

theorem mem_of_mem_dropTrail {p : Nat → Bool} {l : List Nat} {a : Nat}
    (h : a ∈ dropTrail p l) : a ∈ l := by
  unfold dropTrail at h
  rw [List.mem_reverse] at h
  have := (List.dropWhile_sublist (l := l.reverse) p).mem h
  rwa [List.mem_reverse] at this

theorem mem_of_mem_strip2 {p : Nat → Bool} {l : List Nat} {a : Nat}
    (h : a ∈ strip2 p l) : a ∈ l :=
  (List.dropWhile_sublist (l := l) p).mem (mem_of_mem_dropTrail h)

theorem mem_of_mem_squashUAux {a : Nat} :
    ∀ (b : Bool) (l : List Nat), a ∈ squashUAux b l → a ∈ l := by
  intro b l
  induction l generalizing b with
  | nil => intro h; simp [squashUAux] at h
  | cons c rest ih =>
    intro h
    by_cases hc : c = 95
    · subst hc
      cases b with
      | true =>
        simp only [squashUAux, if_pos rfl, if_pos rfl] at h
        exact List.mem_cons_of_mem _ (ih true h)
      | false =>
        simp only [squashUAux, if_pos rfl] at h
        rcases List.mem_cons.mp h with h95 | hrest
        · exact h95 ▸ List.mem_cons_self _ _
        · exact List.mem_cons_of_mem _ (ih true hrest)
    · simp only [squashUAux, if_neg hc] at h
      rcases List.mem_cons.mp h with hac | hrest
      · exact hac ▸ List.mem_cons_self _ _
      · exact List.mem_cons_of_mem _ (ih false hrest)

theorem mem_of_mem_squashU {a : Nat} {l : List Nat} (h : a ∈ squashU l) : a ∈ l :=
  mem_of_mem_squashUAux false l h

/-! ## First-match lemmas for the year scanner -/

theorem findFrom_eq_some (s : List Nat) (fuel : Nat) :
    ∀ (start i : Nat), start ≤ i → i < start + fuel →
      yearMatchAt s i = true → (∀ j, j < i → yearMatchAt s j = false) →
      findFrom s fuel start = some i := by
  induction fuel with
  | zero =>
    intro start i h1 h2 _ _
    omega
  | succ fuel ih =>
    intro start i h1 h2 hp hmin
    by_cases hs : yearMatchAt s start = true
    · have heq : start = i := by
        by_contra hne
        have hlt : start < i := lt_of_le_of_ne h1 hne
        rw [hmin start hlt] at hs
        exact Bool.false_ne_true hs
      subst heq
      simp [findFrom, hs]
    · have hne : start ≠ i := fun he => hs (he ▸ hp)
      have hsf : yearMatchAt s start = false := Bool.eq_false_iff.mpr hs
      simp only [findFrom, hsf, Bool.false_eq_true, if_false]
      exact ih (start + 1) i (by omega) (by omega) hp hmin

theorem findFrom_eq_none (s : List Nat) (h : ∀ j, yearMatchAt s j = false) :
    ∀ (fuel start : Nat), findFrom s fuel start = none := by
  intro fuel
  induction fuel with
  | zero => intro start; rfl
  | succ fuel ih =>
    intro start
    simp only [findFrom, h start, Bool.false_eq_true, if_false]
    exact ih (start + 1)

/-- The property the spec states of a year token: a four-digit number in
1900-2099 between an opening and a closing delimiter. -/
def specYearToken (s : List Nat) (i : Nat) : Prop :=
  i + 5 < s.length ∧ openDelim (cAt s i) = true ∧
  isDigit (cAt s (i + 1)) = true ∧ isDigit (cAt s (i + 2)) = true ∧
  isDigit (cAt s (i + 3)) = true ∧ isDigit (cAt s (i + 4)) = true ∧
  1900 ≤ yearAt s i ∧ yearAt s i ≤ 2099 ∧ closeDelim (cAt s (i + 5)) = true

instance (s : List Nat) (i : Nat) : Decidable (specYearToken s i) := by
  unfold specYearToken
  exact inferInstance

/-- The spec's description of a year token and the code's regex agree. -/
theorem specYearToken_iff_yearMatchAt (s : List Nat) (i : Nat) :
    specYearToken s i ↔ yearMatchAt s i = true := by
  unfold specYearToken yearMatchAt isDigit yearAt
  simp only [Bool.and_eq_true, Bool.or_eq_true, decide_eq_true_eq]
  constructor
  · rintro ⟨h5, ho, ⟨d1a, d1b⟩, ⟨d2a, d2b⟩, hd3, hd4, hlo, hhi⟩
    refine ⟨⟨⟨⟨⟨h5, ho⟩, ?_⟩, hd3⟩, hd4⟩, hhi.2⟩
    omega
  · rintro ⟨⟨⟨⟨⟨h5, ho⟩, hpre⟩, hd3⟩, hd4⟩, hc⟩
    rcases hd3 with ⟨d3a, d3b⟩
    rcases hd4 with ⟨d4a, d4b⟩
    rcases hpre with ⟨h1, h2⟩ | ⟨h1, h2⟩ <;>
      exact ⟨h5, ho, by omega, by omega, ⟨d3a, d3b⟩, ⟨d4a, d4b⟩, by omega, by omega, hc⟩

/-! ## Output invariants of the two sanitizers -/

theorem ci_sanitize_good (s : List Nat) :
    (ci_sanitize s).all (fun c => !(invalid9 c)) = true := by
  rw [List.all_eq_true]
  intro a ha
  simp only [ci_sanitize, pyStrip] at ha
  exact (List.mem_filter.mp (mem_of_mem_strip2 ha)).2

theorem plexSanitize_good (s : List Nat) :
    (plexSanitize s).all (fun c => !(plexInvalid c)) = true := by
  rw [List.all_eq_true]
  intro a ha
  simp only [plexSanitize] at ha
  split at ha
  · have hu : unnamedFile.all (fun c => !(plexInvalid c)) = true := by decide
    exact List.all_eq_true.mp hu a ha
  · have h2 := List.mem_map.mp
      (mem_of_mem_strip2 (mem_of_mem_squashU (mem_of_mem_dropTrail ha)))
    rcases h2 with ⟨c, _, hc⟩
    by_cases hpc : plexInvalid c
    · rw [if_pos hpc] at hc
      subst hc
      decide
    · rw [if_neg hpc] at hc
      subst hc
      simp [Bool.of_not_eq_true hpc]

theorem plexSanitize_nonempty (s : List Nat) : (plexSanitize s).isEmpty = false := by
  simp only [plexSanitize]
  split
  · decide
  · rename_i h
    simpa [List.isEmpty_iff] using h

theorem ci_sanitize_idem (s : List Nat) :
    ci_sanitize (ci_sanitize s) = ci_sanitize s := by
  have hf : (ci_sanitize s).filter (fun c => !(invalid9 c)) = ci_sanitize s :=
    List.filter_eq_self.mpr (fun a ha => List.all_eq_true.mp (ci_sanitize_good s) a ha)
  unfold ci_sanitize pyStrip at hf ⊢
  rw [hf]
  exact strip2_idem pySpace _

/-! ## The claims -/

/-- Claim C1: for every filename whose stem holds a year token as the spec
describes it (a four-digit 1900-2099 number between delimiters),
`extract_title_year` returns the year of the first such token and the stem
with the matched six characters removed, dots despaced and stripped; with no
such token it returns no year and the despaced, stripped stem. -/
theorem extract_title_year_meets_spec (fn : List Nat) :
    (∀ i : Nat, specYearToken (pyStem fn) i →
        (∀ j, j < i → ¬ specYearToken (pyStem fn) j) →
        extract_title_year fn =
          (pyStrip (dotToSpace ((pyStem fn).take i ++ (pyStem fn).drop (i + 6))),
            some (yearAt (pyStem fn) i)) ∧
        1900 ≤ yearAt (pyStem fn) i ∧ yearAt (pyStem fn) i ≤ 2099) ∧
    ((∀ i : Nat, ¬ specYearToken (pyStem fn) i) →
        extract_title_year fn = (pyStrip (dotToSpace (pyStem fn)), none)) := by
  constructor
  · intro i hi hmin
    have hb : yearMatchAt (pyStem fn) i = true :=
      (specYearToken_iff_yearMatchAt _ _).mp hi
    have hminb : ∀ j, j < i → yearMatchAt (pyStem fn) j = false := by
      intro j hj
      have hns := hmin j hj
      rw [specYearToken_iff_yearMatchAt] at hns
      exact Bool.eq_false_iff.mpr hns
    have hlen : i < (pyStem fn).length := by
      have := hi.1
      omega
    have hfind : findYearMatch (pyStem fn) = some i :=
      findFrom_eq_some _ _ 0 i (Nat.zero_le i) (by omega) hb hminb
    refine ⟨?_, hi.2.2.2.2.2.2.1, hi.2.2.2.2.2.2.2.1⟩
    simp only [extract_title_year, findYearMatch] at hfind ⊢
    rw [hfind]
  · intro hnone
    have hb : ∀ j, yearMatchAt (pyStem fn) j = false := by
      intro j
      have := hnone j
      rw [specYearToken_iff_yearMatchAt] at this
      exact Bool.eq_false_iff.mpr this
    have hfind : findYearMatch (pyStem fn) = none := findFrom_eq_none _ hb _ 0
    simp only [extract_title_year, findYearMatch] at hfind ⊢
    rw [hfind]

/-- Claim C2, amended: both sanitizers leave none of the nine invalid
characters; the sanitizer tool's output moreover has no control characters
and is never empty.  (The renamer's output can be empty and can keep an
embedded control character, see the counterexample.) -/
theorem sanitize_output_invariants (s : List Nat) :
    (ci_sanitize s).all (fun c => !(invalid9 c)) = true ∧
    (plexSanitize s).all (fun c => !(plexInvalid c)) = true ∧
    (plexSanitize s).isEmpty = false :=
  ⟨ci_sanitize_good s, plexSanitize_good s, plexSanitize_nonempty s⟩

/-- Claim C2 counterexample: the renamer's `sanitize_filename` maps `"?"` to
the empty string, and keeps the control character `\x01` in `"a\x01b"`. -/
theorem sanitize_empty_and_control_cex :
    ci_sanitize (codes "?") = [] ∧ ci_sanitize [97, 1, 98] = [97, 1, 98] := by
  decide

/-- Claim C3, amended: the renamer's `sanitize_filename` is idempotent; the
sanitizer tool's is not (on `"a.<"` a second application still changes the
name, because `rstrip('_')` can expose a trailing dot). -/
theorem sanitize_idempotence :
    (∀ s : List Nat, ci_sanitize (ci_sanitize s) = ci_sanitize s) ∧
    (plexSanitize (plexSanitize (codes "a.<")) == plexSanitize (codes "a.<")) = false :=
  ⟨ci_sanitize_idem, by decide⟩

/-- Claim C3 counterexample: `plex_converter.sanitize_filename` is not
idempotent: it maps `"a.<"` to `"a."` and `"a."` to `"a"`. -/
theorem plex_sanitize_not_idem_cex :
    plexSanitize (codes "a.<") = codes "a." ∧
    plexSanitize (plexSanitize (codes "a.<")) = codes "a" := by
  decide

theorem ci_process_file_dry_fs (mNet tNet : Net) (cache : Cache) (fs : FS)
    (fn : List Nat) : (ci_process_file mNet tNet cache fs fn true).fs = fs := by
  rcases h : ci_plan mNet tNet cache fn with ⟨nm, c, calls⟩
  cases nm with
  | none => simp [ci_process_file, h]
  | some newName => simp [ci_process_file, h]

theorem ci_process_directory_dry_fs (mNet tNet : Net) :
    ∀ (files : List (List Nat)) (cache : Cache) (fs : FS),
      (ci_process_directory mNet tNet cache fs files true).2 = fs := by
  intro files
  induction files with
  | nil =>
    intro cache fs
    rfl
  | cons f rest ih =>
    intro cache fs
    show (ci_process_directory mNet tNet
        (ci_process_file mNet tNet cache fs f true).cache
        (ci_process_file mNet tNet cache fs f true).fs rest true).2 = fs
    rw [ci_process_file_dry_fs]
    exact ih _ fs

theorem plex_process_file_dry_fs (fs : FS) (n : List Nat) :
    (plex_process_file fs n true).2 = fs := by
  by_cases h : plexSanitize n = n <;> simp [plex_process_file, h]

theorem plex_process_directory_dry_fs :
    ∀ (files : List (List Nat)) (fs : FS), plex_process_directory fs files true = fs := by
  intro files
  induction files with
  | nil =>
    intro fs
    rfl
  | cons f rest ih =>
    intro fs
    show plex_process_directory (plex_process_file fs f true).2 rest true = fs
    rw [plex_process_file_dry_fs]
    exact ih fs

/-- Claim C5: with `dry_run = True` neither tool changes the directory, file
by file and over a whole run. -/
theorem dry_run_preserves_fs (mNet tNet : Net) (cache : Cache) (fs : FS)
    (fn : List Nat) (files : List (List Nat)) :
    (ci_process_file mNet tNet cache fs fn true).fs = fs ∧
    (ci_process_directory mNet tNet cache fs files true).2 = fs ∧
    (plex_process_file fs fn true).2 = fs ∧
    plex_process_directory fs files true = fs :=
  ⟨ci_process_file_dry_fs mNet tNet cache fs fn,
    ci_process_directory_dry_fs mNet tNet files cache fs,
    plex_process_file_dry_fs fs fn,
    plex_process_directory_dry_fs files fs⟩

/-- Claim C6: the renamer's fallback chain tries the movie lookup first, tries
the TV lookup exactly when the movie lookup returned nothing, and never
invokes the anime lookup. -/
theorem lookup_fallback_chain (mNet tNet : Net) (cache : Cache) (fn : List Nat) :
    (ci_plan mNet tNet cache fn).2.2 =
      (match (search_movie mNet cache (extract_title_year fn).1
          (extract_title_year fn).2).1 with
        | some _ => [Lookup.movie]
        | none => [Lookup.movie, Lookup.tv]) ∧
    ((ci_plan mNet tNet cache fn).2.2.contains Lookup.anime) = false := by
  cases hm : (search_movie mNet cache (extract_title_year fn).1
      (extract_title_year fn).2).1 with
  | some info =>
    constructor <;> simp [ci_plan, hm]
    all_goals decide
  | none =>
    cases htv : (search_tv_show tNet
        (search_movie mNet cache (extract_title_year fn).1 (extract_title_year fn).2).2.1
        (extract_title_year fn).1 (extract_title_year fn).2).1 with
    | some info =>
      cases hname : info.name <;> (constructor <;> simp [ci_plan, hm, htv, hname])
      all_goals decide
    | none =>
      constructor <;> simp [ci_plan, hm, htv]
      all_goals decide

/-- Claim C4, amended: in apply mode the renamer skips (returns `False`,
leaves the directory alone) whenever the planned target name already exists;
the sanitizer tool renames with no existence check at all, so an existing
target is replaced (POSIX rename semantics). -/
theorem rename_collision_policy (mNet tNet : Net) (cache : Cache) (fs : FS)
    (fn nm : List Nat) (c : Cache) (calls : List Lookup) (v : Nat) :
    (ci_plan mNet tNet cache fn = (some nm, c, calls) → fsExists fs nm = true →
        ci_process_file mNet tNet cache fs fn false = ⟨false, c, fs, calls⟩) ∧
    (plexSanitize fn ≠ fn → fsLookup fs fn = some v →
        plex_process_file fs fn false =
          (true, (fs.filter (fun e => decide (e.1 ≠ fn) &&
              decide (e.1 ≠ plexSanitize fn))) ++ [(plexSanitize fn, v)])) := by
  constructor
  · intro h1 h2
    simp [ci_process_file, h1, h2]
  · intro hne hv
    simp [plex_process_file, hne, posixRename, hv]

/-- Claim C4 counterexample: in apply mode, with target `"a_b"` already
present (file id 2), the sanitizer tool still renames `"a<b"` (file id 1):
the call reports `True` and the pre-existing file is replaced, not skipped. -/
theorem plex_overwrite_cex :
    plex_process_file [(codes "a<b", 1), (codes "a_b", 2)] (codes "a<b") false =
      (true, [(codes "a_b", 1)]) ∧
    (fsLookup (plex_process_file [(codes "a<b", 1), (codes "a_b", 2)]
        (codes "a<b") false).2 (codes "a_b") == some 2) = false := by
  decide

/-- Claim C9: a file whose name the sanitizer leaves unchanged is reported
unprocessed (`False`) and the directory is untouched, in either mode. -/
theorem plex_fixed_point_skip (fs : FS) (name : List Nat) (dryRun : Bool)
    (h : plexSanitize name = name) :
    plex_process_file fs name dryRun = (false, fs) := by
  simp [plex_process_file, h]

/-- Claim C9 witness: `"movie.mkv"` is already sanitized and is skipped. -/
theorem plex_fixed_point_skip_witness :
    plex_process_file [(codes "movie.mkv", 1)] (codes "movie.mkv") false =
      (false, [(codes "movie.mkv", 1)]) :=
  plex_fixed_point_skip [(codes "movie.mkv", 1)] (codes "movie.mkv") false (by decide)

/-- Claim C10: the year written by `format_movie_filename` is the first four
characters of the dict's `release_date` value; the `'0000'` default applies
only when the key is absent; a present-but-empty `release_date` yields an
empty year, as in `"Title ().mkv"`. -/
theorem format_movie_year_source (info : Info) (ext rd : List Nat) :
    (info.release_date = some rd →
        format_movie_filename info ext =
          ci_sanitize (info.title.getD (codes "Unknown")) ++ codes " (" ++ rd.take 4 ++
            codes ")" ++ ext) ∧
    (info.release_date = none →
        format_movie_filename info ext =
          ci_sanitize (info.title.getD (codes "Unknown")) ++ codes " (" ++ codes "0000" ++
            codes ")" ++ ext) ∧
    format_movie_filename ⟨some (codes "Title"), some [], none⟩ (codes ".mkv") =
      codes "Title ().mkv" := by
  refine ⟨?_, ?_, by decide⟩
  · intro h
    simp [format_movie_filename, h]
  · intro h
    simp [format_movie_filename, h]
    decide

/-- The memoization key as the spec words it: composed of the call type, the
title and the year.  `movieKey`/`tvKey` realize it; `animeKey` does not. -/
def specCacheKey (kind t : List Nat) (y : Option Nat) : List Nat :=
  kind ++ [95] ++ t ++ [95] ++ optYearCodes y

/-- Claim C7, amended: the three search functions return a cache hit without
querying; a non-empty first result is stored (movie/TV under the
type-title-year key, anime under the type-title key, which has no year
component); a failure or empty result stores nothing, so the same arguments
query the network again on the next call. -/
theorem search_cache_policy (mNet tNet : Net) (aNet : AnimeNet) (cache : Cache)
    (t : List Nat) (y : Option Nat) (v r : Info) :
    movieKey t y = specCacheKey (codes "movie") t y ∧
    tvKey t y = specCacheKey (codes "tv") t y ∧
    animeKey t = codes "anime" ++ [95] ++ t ∧
    (cacheLookup cache (movieKey t y) = some v →
        search_movie mNet cache t y = (some v, cache, false)) ∧
    (∀ rs, cacheLookup cache (movieKey t y) = none → mNet t y = some (r :: rs) →
        search_movie mNet cache t y = (some r, cache ++ [(movieKey t y, r)], true)) ∧
    (cacheLookup cache (movieKey t y) = none →
        (mNet t y = none ∨ mNet t y = some []) →
        search_movie mNet cache t y = (none, cache, true) ∧
        (search_movie mNet (search_movie mNet cache t y).2.1 t y).2.2 = true) ∧
    (cacheLookup cache (tvKey t y) = some v →
        search_tv_show tNet cache t y = (some v, cache, false)) ∧
    (∀ rs, cacheLookup cache (tvKey t y) = none → tNet t y = some (r :: rs) →
        search_tv_show tNet cache t y = (some r, cache ++ [(tvKey t y, r)], true)) ∧
    (cacheLookup cache (tvKey t y) = none →
        (tNet t y = none ∨ tNet t y = some []) →
        search_tv_show tNet cache t y = (none, cache, true) ∧
        (search_tv_show tNet (search_tv_show tNet cache t y).2.1 t y).2.2 = true) ∧
    (cacheLookup cache (animeKey t) = some v →
        search_anime aNet cache t = (some v, cache, false)) ∧
    (∀ rs, cacheLookup cache (animeKey t) = none → aNet t = some (r :: rs) →
        search_anime aNet cache t = (some r, cache ++ [(animeKey t, r)], true)) ∧
    (cacheLookup cache (animeKey t) = none →
        (aNet t = none ∨ aNet t = some []) →
        search_anime aNet cache t = (none, cache, true) ∧
        (search_anime aNet (search_anime aNet cache t).2.1 t).2.2 = true) := by
  refine ⟨?_, ?_, ?_, ?_, ?_, ?_, ?_, ?_, ?_, ?_, ?_, ?_⟩
  · have h : codes "movie_" = codes "movie" ++ [95] := by decide
    simp [movieKey, specCacheKey, h]
  · have h : codes "tv_" = codes "tv" ++ [95] := by decide
    simp [tvKey, specCacheKey, h]
  · have h : codes "anime_" = codes "anime" ++ [95] := by decide
    simp [animeKey, h]
  · intro h
    simp [search_movie, h]
  · intro rs hc hn
    simp [search_movie, hc, hn]
  · intro hc hf
    rcases hf with hf | hf <;> (constructor <;> simp [search_movie, hc, hf])
  · intro h
    simp [search_tv_show, h]
  · intro rs hc hn
    simp [search_tv_show, hc, hn]
  · intro hc hf
    rcases hf with hf | hf <;> (constructor <;> simp [search_tv_show, hc, hf])
  · intro h
    simp [search_anime, h]
  · intro rs hc hn
    simp [search_anime, hc, hn]
  · intro hc hf
    rcases hf with hf | hf <;> (constructor <;> simp [search_anime, hc, hf])

/-- Claim C7 counterexample: a successful anime search for title `"X"` is
stored under `"anime_X"`, which is not the type-title-year composition the
claim states (here instantiated with the call's absent year). -/
theorem anime_cache_key_cex :
    search_anime (fun _ => some [⟨none, none, none⟩]) [] (codes "X") =
      (some ⟨none, none, none⟩, [(codes "anime_X", ⟨none, none, none⟩)], true) ∧
    ((codes "anime_X") == specCacheKey (codes "anime") (codes "X") none) = false := by
  decide

/-- Claim C8, amended: on `"Show: Season 1?.mp4"` the sanitizer tool yields
`"Show_ Season 1_.mp4"`: the colon and the question mark are replaced by
underscores, not removed. -/
theorem plex_example_actual_output :
    plexSanitize (codes "Show: Season 1?.mp4") = codes "Show_ Season 1_.mp4" := by
  decide

/-- Claim C8 counterexample: the output on `"Show: Season 1?.mp4"` is not the
spec's `"Show Season 1.mp4"`. -/
theorem plex_example_cex :
    (plexSanitize (codes "Show: Season 1?.mp4") == codes "Show Season 1.mp4") = false := by
  decide

/-! Concrete runs showing the conditional branches above are all reachable. -/

example :
    ci_process_file (fun _ _ => some [⟨some (codes "T"), some (codes "1999-03-31"), none⟩])
      (fun _ _ => some []) []
      [(codes "x.mkv", 1), (codes "T (1999).mkv", 2)] (codes "x.mkv") false =
      ⟨false, [(codes "movie_x_None", ⟨some (codes "T"), some (codes "1999-03-31"), none⟩)],
        [(codes "x.mkv", 1), (codes "T (1999).mkv", 2)], [Lookup.movie]⟩ := by decide

example :
    search_movie (fun _ _ => none)
      [(codes "movie_x_None", ⟨some (codes "T"), none, none⟩)] (codes "x") none =
      (some ⟨some (codes "T"), none, none⟩,
        [(codes "movie_x_None", ⟨some (codes "T"), none, none⟩)], false) := by decide

example :
    search_tv_show (fun _ _ => some []) [] (codes "x") (some 1999) =
      (none, [], true) := by decide

example :
    format_movie_filename ⟨some (codes "The Matrix"), some (codes "1999-03-31"), none⟩
      (codes ".mkv") = codes "The Matrix (1999).mkv" := by decide

example :
    ci_process_file (fun _ _ => some [⟨some (codes "T"), some (codes "1999-03-31"), none⟩])
      (fun _ _ => some []) [] [(codes "x.mkv", 1)] (codes "x.mkv") true =
      ⟨true, [(codes "movie_x_None", ⟨some (codes "T"), some (codes "1999-03-31"), none⟩)],
        [(codes "x.mkv", 1)], [Lookup.movie]⟩ := by decide
